import Mathlib

/-!
Verification of the footprint-consolidation engine of the satellite-identifier
repository: a shallow embedding of `clean_overlapping_bboxes` (the single-pass
reducer in `miscellaneous/clean_overlapping_bboxes.py`), of the local variant
defined in `tests/Test5.py` (IoU scoring with the `remove_smaller` / `merge`
policies), and of the cleaning loop of
`miscellaneous/make_a_gif_for_coordinates.py`.

The geometry capability (shapely) is external to the engine; the spec makes the
engine polymorphic over any implementation of `area` / `intersection` / `union`
/ `envelope` on polygons and multi-polygons.  The shapes that actually flow
through the pipeline are axis-aligned bounding rectangles (`box(*g.bounds)`),
so the capability is instantiated here with axis-aligned rectangles with
rational coordinates (`minx ≤ maxx`, `miny ≤ maxy` for every rectangle the
pipeline produces); for these the rectangle formulas below agree exactly with
shapely: the intersection of two such rectangles is the (possibly empty)
clipped rectangle, the area of the union of two polygons is given by
inclusion–exclusion, and the envelope of their union is the bounding rectangle
of the two.  `point` stands for any non-areal geometry kind, which the
validation step must reject.
-/

namespace SatClean

/-- An axis-aligned rectangle given by its bounds, as produced by
`shapely.geometry.box(minx, miny, maxx, maxy)`. -/
structure Rect where
  minx : ℚ
  miny : ℚ
  maxx : ℚ
  maxy : ℚ
deriving DecidableEq

/-- Horizontal extent, clamped at zero (an inverted clip is an empty shape). -/
def Rect.width (r : Rect) : ℚ := max (r.maxx - r.minx) 0

/-- Vertical extent, clamped at zero. -/
def Rect.height (r : Rect) : ℚ := max (r.maxy - r.miny) 0

/-- Area of a rectangle (0 when it is empty or degenerate). -/
def Rect.area (r : Rect) : ℚ := r.width * r.height

/-- Intersection of two axis-aligned rectangles: the clipped rectangle
(its clamped area is 0 exactly when the shapes do not properly overlap). -/
def Rect.inter (r s : Rect) : Rect :=
  ⟨max r.minx s.minx, max r.miny s.miny, min r.maxx s.maxx, min r.maxy s.maxy⟩

/-- Bounding rectangle of two rectangles: the `envelope` of their union. -/
def Rect.hull (r s : Rect) : Rect :=
  ⟨min r.minx s.minx, min r.miny s.miny, max r.maxx s.maxx, max r.maxy s.maxy⟩

/-- The geometry kinds the code distinguishes.  `polygon` and `multiPolygon`
are the two kinds accepted by `isinstance(geom, (Polygon, MultiPolygon))`,
instantiated with a rectangular shape; `point` stands for any other kind. -/
inductive Geometry where
  | polygon (r : Rect)
  | multiPolygon (r : Rect)
  | point (x y : ℚ)
deriving DecidableEq

instance : Inhabited Geometry := ⟨.polygon ⟨0, 0, 0, 0⟩⟩

/-- `isinstance(geom, (Polygon, MultiPolygon))`. -/
def validKind : Geometry → Bool
  | .polygon _ => true
  | .multiPolygon _ => true
  | .point _ _ => false

/-- Underlying rectangle of a geometry (a point is a degenerate rectangle). -/
def rectOf : Geometry → Rect
  | .polygon r => r
  | .multiPolygon r => r
  | .point x y => ⟨x, y, x, y⟩

/-- `geom.area`. -/
def area (g : Geometry) : ℚ := (rectOf g).area

/-- `geom_a.intersection(geom_b).area`. -/
def interArea (g h : Geometry) : ℚ := ((rectOf g).inter (rectOf h)).area

/-- `a.union(b).area`, by inclusion–exclusion (exact for two polygons). -/
def unionArea (g h : Geometry) : ℚ := area g + area h - interArea g h

/-- `a.union(b).envelope`: the minimum axis-aligned bounding rectangle of the
union of the two shapes. -/
def unionEnvelope (g h : Geometry) : Rect := (rectOf g).hull (rectOf h)

/-- `polygon.intersection(other).area / polygon.union(other).area`
(Test5 scoring).  Division by zero yields 0 in ℚ; the Python code would raise
there, which is only reachable when both shapes are degenerate. -/
def iou (g h : Geometry) : ℚ := interArea g h / unionArea g h

/-- A geometry-only GeoDataFrame after `reset_index(drop=True)`: rows indexed
positionally, plus the coordinate reference system. -/
structure GeoDataFrame where
  rows : List Geometry
  crs : Option String
deriving DecidableEq

instance {ε α : Type} [DecidableEq ε] [DecidableEq α] : DecidableEq (Except ε α) := fun
  | .error a, .error b =>
      if h : a = b then .isTrue (congrArg Except.error h)
      else .isFalse (fun hh => h (Except.error.inj hh))
  | .error _, .ok _ => .isFalse Except.noConfusion
  | .ok _, .error _ => .isFalse Except.noConfusion
  | .ok a, .ok b =>
      if h : a = b then .isTrue (congrArg Except.ok h)
      else .isFalse (fun hh => h (Except.ok.inj hh))

/-- The `threshold: float = 0.3` default of `clean_overlapping_bboxes`. -/
def defaultThreshold : ℚ := 3 / 10

/-- The overlap test of the inner loop:
`ratio_a > threshold or ratio_b > threshold` with
`ratio_a = inter_area / geom_a.area` and `ratio_b = inter_area / geom_b.area`. -/
def overlapb (t : ℚ) (ga gb : Geometry) : Bool :=
  decide (interArea ga gb / area ga > t) || decide (interArea ga gb / area gb > t)

/-- Condition under which index `b` becomes `merge_target` for index `a`:
`b > a`, not yet consumed, `geom_b.area != 0`, and the overlap test passes. -/
def isCand (rows : List Geometry) (t : ℚ) (a : ℕ) (ga : Geometry)
    (merged : List ℕ) (b : ℕ) : Bool :=
  decide (a < b) && decide (b ∉ merged) &&
    decide (area (rows.getD b default) ≠ 0) && overlapb t ga (rows.getD b default)

/-- The inner `for idx_b in gdf.index` scan: the first index satisfying
`isCand`, if any (`break` at the first hit). -/
def findMergeTarget (rows : List Geometry) (t : ℚ) (a : ℕ) (ga : Geometry)
    (merged : List ℕ) : Option ℕ :=
  (List.range rows.length).find? (isCand rows t a ga merged)

/-- One iteration of the outer `for idx_a in gdf.index` loop of
`clean_overlapping_bboxes`; the state is `(merged_indices, new_geometries)`. -/
def passStep (rows : List Geometry) (t : ℚ) (a : ℕ)
    (st : List ℕ × List Geometry) : List ℕ × List Geometry :=
  if a ∈ st.1 then st
  else if area (rows.getD a default) = 0 then (a :: st.1, st.2)
  else
    match findMergeTarget rows t a (rows.getD a default) st.1 with
    | none => st
    | some b =>
        (b :: a :: st.1,
          st.2 ++ [Geometry.polygon
            (unionEnvelope (rows.getD a default) (rows.getD b default))])

/-- Running the outer loop from index `a` for `fuel` more indices. -/
def passLoopFuel (rows : List Geometry) (t : ℚ) :
    ℕ → ℕ → List ℕ × List Geometry → List ℕ × List Geometry
  | 0, _, st => st
  | fuel + 1, a, st => passLoopFuel rows t fuel (a + 1) (passStep rows t a st)

/-- The whole outer loop `for idx_a in gdf.index` (indices `0 .. n-1`). -/
def passLoop (rows : List Geometry) (t : ℚ) : List ℕ × List Geometry :=
  passLoopFuel rows t rows.length 0 ([], [])

/-- The `ValueError` message of `clean_overlapping_bboxes`. -/
def invalidGeometryMsg : String := "Geometry must be a Polygon or MultiPolygon"

/-- Rows of the pass result: the un-merged rows
(`gdf.loc[~gdf.index.isin(merged_indices)]`), followed by the newly merged
geometries when there are any (`pd.concat([remaining, merged_gdf])`). -/
def passResultRows (rows : List Geometry) (t : ℚ) : List Geometry :=
  let st := passLoop rows t
  let remaining :=
    ((List.range rows.length).filter (fun i => decide (i ∉ st.1))).map
      (fun i => rows.getD i default)
  if st.2.isEmpty then remaining else remaining ++ st.2

/-- One reduction pass (`miscellaneous/clean_overlapping_bboxes.py`): validate
every geometry kind, run the greedy merge scan, then build the result frame.
In the source both result branches carry the input's crs (set explicitly via
`crs=gdf.crs` when merged geometries exist, inherited from the `loc` slice of
the copy otherwise). -/
def clean_overlapping_bboxes (gdf : GeoDataFrame) (t : ℚ) :
    Except String GeoDataFrame :=
  if gdf.rows.all validKind then Except.ok ⟨passResultRows gdf.rows t, gdf.crs⟩
  else Except.error invalidGeometryMsg

/-- The `for i in range(max_cleaning_iterations)` loop of
`make_a_gif_for_coordinates` (lines 186-206): each iteration records one GIF
frame (elided here) and then replaces the working set with the result of one
cleaning pass.  The loop body contains no early exit.  Returns the final set
together with the number of passes executed. -/
def cleaningLoop (t : ℚ) : ℕ → GeoDataFrame → Except String (GeoDataFrame × ℕ)
  | 0, gdf => Except.ok (gdf, 0)
  | n + 1, gdf =>
      match clean_overlapping_bboxes gdf t with
      | Except.error e => Except.error e
      | Except.ok gdf2 =>
          match cleaningLoop t n gdf2 with
          | Except.error e => Except.error e
          | Except.ok (gfinal, k) => Except.ok (gfinal, k + 1)

def emptyGdf : GeoDataFrame := ⟨[], none⟩

/-- Heap model of one call to `clean_overlapping_bboxes`.  The Python function
starts with `gdf = gdf.copy().reset_index(drop=True)` and from then on applies
only allocating pandas operations (`loc` slicing, `pd.concat`,
`gpd.GeoDataFrame(...)`) — it never writes through the caller's reference.  A
heap is a list of frames and a frame reference is an index into it; a call
reads the frame at the input reference, allocates the result as a fresh frame
and returns its reference. -/
def cleanOnHeap (heap : List GeoDataFrame) (i : ℕ) (t : ℚ) :
    Except String (List GeoDataFrame × ℕ) :=
  match clean_overlapping_bboxes (heap.getD i emptyGdf) t with
  | Except.error e => Except.error e
  | Except.ok out => Except.ok (heap ++ [out], heap.length)

namespace Test5

/-- The `what_to_do_on_overlap` modes of the Test5 variant. -/
inductive Mode where
  | removeSmaller
  | merge
deriving DecidableEq

/-- The `ValueError` message of the Test5 variant. -/
def invalidMsg : String := "La géométrie doit être un Polygon ou MultiPolygon"

/-- The body of `if iou > threshold:` in `tests/Test5.py`: under
`remove_smaller`, every row whose geometry equals the smaller of the two
shapes is filtered out (`gdf[gdf.geometry != ...]`, ties keep `polygon`);
under `merge`, the rows equal to either shape are filtered out and the
envelope of the union is appended (`pd.concat(..., ignore_index=True)`). -/
def resolveOverlap (mode : Mode) (p other : Geometry) (gdf : List Geometry) :
    List Geometry :=
  match mode with
  | .removeSmaller =>
      if area p ≥ area other then gdf.filter (fun g => g ≠ other)
      else gdf.filter (fun g => g ≠ p)
  | .merge =>
      ((gdf.filter (fun g => g ≠ p)).filter (fun g => g ≠ other)) ++
        [Geometry.polygon (unionEnvelope p other)]

/-- The inner `for other in gdf.geometry` loop of the Test5 variant.
`others` is the snapshot of rows the inner iterator was created from (the
value of `gdf` when the inner loop starts); the accumulator is the current,
locally rebound `gdf`.  A pair of value-equal geometries is skipped
(`if polygon == other: continue` — shapely `==` is exact structural
equality). -/
def innerScan (t : ℚ) (mode : Mode) (p : Geometry)
    (others gdf : List Geometry) : List Geometry :=
  others.foldl
    (fun gdf other =>
      if p = other then gdf
      else if iou p other > t then resolveOverlap mode p other gdf
      else gdf)
    gdf

/-- The outer `for polygon in gdf.geometry` loop of the Test5 variant.  The
outer iterator is fixed when the loop starts, so it walks the ORIGINAL rows
even while the local `gdf` is rebound; each polygon is kind-checked when the
outer loop reaches it. -/
def outerScan (t : ℚ) (mode : Mode) :
    List Geometry → List Geometry → Except String (List Geometry)
  | [], gdf => Except.ok gdf
  | p :: rest, gdf =>
      if validKind p then outerScan t mode rest (innerScan t mode p gdf gdf)
      else Except.error invalidMsg

/-- The local `clean_overlapping_bboxes` of `tests/Test5.py` (lines 61-96). -/
def clean_overlapping_bboxes (rows : List Geometry) (t : ℚ) (mode : Mode) :
    Except String (List Geometry) :=
  outerScan t mode rows rows

end Test5

/-! Concrete geometries used by witnesses and counterexamples. -/

/-- A unit square `box(0, 0, 1, 1)`. -/
def unitSq : Geometry := .polygon ⟨0, 0, 1, 1⟩

/-- A degenerate (zero-width) rectangle: `area == 0`. -/
def degGeom : Geometry := .polygon ⟨0, 0, 0, 1⟩

def crsL93 : Option String := some "EPSG:2154"

def oneBoxGdf : GeoDataFrame := ⟨[unitSq], crsL93⟩

def degGdf : GeoDataFrame := ⟨[degGeom], crsL93⟩

def twoSqGdf : GeoDataFrame := ⟨[unitSq, unitSq], crsL93⟩

/-- Scenario C: shape A, `area = 10`. -/
def bigA : Geometry := .polygon ⟨0, 0, 5, 2⟩

/-- Scenario C: shape B, `area = 4`, contained in A. -/
def smallB : Geometry := .polygon ⟨0, 0, 2, 2⟩

/-! ### Helper lemmas -/

/-- `List.find?` over `List.range n` returns the least index satisfying the
predicate. -/
theorem find?_range_some {p : ℕ → Bool} :
    ∀ {n b : ℕ}, (List.range n).find? p = some b ↔
      b < n ∧ p b = true ∧ ∀ c, c < b → p c = false := by
  intro n
  induction n with
  | zero => intro b; simp
  | succ n ih =>
    intro b
    rw [List.range_succ, List.find?_append]
    cases hfind : (List.range n).find? p with
    | some b0 =>
      obtain ⟨hb0n, hpb0, hmin⟩ := ih.mp hfind
      simp only [Option.or_some, Option.some.injEq]
      constructor
      · rintro rfl
        exact ⟨Nat.lt_succ_of_lt hb0n, hpb0, hmin⟩
      · rintro ⟨hbn, hpb, hminb⟩
        rcases Nat.lt_trichotomy b0 b with h | h | h
        · exact absurd hpb0 (by simp [hminb b0 h])
        · exact h
        · exact absurd hpb (by simp [hmin b h])
    | none =>
      have hnone : ∀ c, c < n → p c = false := by
        intro c hc
        have := List.find?_eq_none.mp hfind c (List.mem_range.mpr hc)
        simpa using this
      simp only [Option.none_or]
      by_cases hpn : p n
      · simp only [List.find?_cons_of_pos _ hpn, Option.some.injEq]
        constructor
        · rintro rfl
          exact ⟨Nat.lt_succ_self _, hpn, hnone⟩
        · rintro ⟨hbn, hpb, hminb⟩
          rcases Nat.lt_succ_iff_lt_or_eq.mp hbn with h | h
          · exact absurd hpb (by simp [hnone b h])
          · exact h.symm
      · simp only [List.find?_cons_of_neg _ hpn, List.find?_nil]
        constructor
        · rintro ⟨⟩
        · rintro ⟨hbn, hpb, hminb⟩
          rcases Nat.lt_succ_iff_lt_or_eq.mp hbn with h | rfl
          · exact absurd hpb (by simp [hnone b h])
          · exact absurd hpb (by simpa using hpn)

/-- Unfolding of the candidate test for a merge target. -/
theorem isCand_eq_true {rows : List Geometry} {t : ℚ} {a : ℕ} {ga : Geometry}
    {merged : List ℕ} {b : ℕ} :
    isCand rows t a ga merged b = true ↔
      a < b ∧ b ∉ merged ∧ area (rows.getD b default) ≠ 0 ∧
        overlapb t ga (rows.getD b default) = true := by
  simp [isCand, Bool.and_eq_true, decide_eq_true_iff, and_assoc]

/-- A rectangle of nonzero area has positive extent in both axes. -/
theorem Rect.extent_pos_of_area_ne_zero {r : Rect} (h : r.area ≠ 0) :
    0 < r.maxx - r.minx ∧ 0 < r.maxy - r.miny := by
  constructor
  · by_contra hc
    push_neg at hc
    exact h (by simp [Rect.area, Rect.width, max_eq_right hc])
  · by_contra hc
    push_neg at hc
    exact h (by simp [Rect.area, Rect.height, max_eq_right hc])

/-- The bounding rectangle of two rectangles has area at least that of either:
in particular it is non-degenerate whenever the first one is. -/
theorem Rect.hull_area_ne_zero {r s : Rect} (h : r.area ≠ 0) :
    (r.hull s).area ≠ 0 := by
  obtain ⟨hx, hy⟩ := Rect.extent_pos_of_area_ne_zero h
  have hx2 : 0 < (r.hull s).maxx - (r.hull s).minx := by
    have h1 : r.maxx ≤ max r.maxx s.maxx := le_max_left _ _
    have h2 : min r.minx s.minx ≤ r.minx := min_le_left _ _
    simp only [Rect.hull]
    linarith
  have hy2 : 0 < (r.hull s).maxy - (r.hull s).miny := by
    have h1 : r.maxy ≤ max r.maxy s.maxy := le_max_left _ _
    have h2 : min r.miny s.miny ≤ r.miny := min_le_left _ _
    simp only [Rect.hull]
    linarith
  have : 0 < (r.hull s).area := by
    have hw : (r.hull s).width = (r.hull s).maxx - (r.hull s).minx :=
      max_eq_left hx2.le
    have hh : (r.hull s).height = (r.hull s).maxy - (r.hull s).miny :=
      max_eq_left hy2.le
    rw [Rect.area, hw, hh]
    exact mul_pos hx2 hy2
  exact this.ne'

/-- The merged geometry built from a non-degenerate first parent is itself
non-degenerate. -/
theorem area_merged_ne_zero {g h : Geometry} (hg : area g ≠ 0) :
    area (Geometry.polygon (unionEnvelope g h)) ≠ 0 := by
  have : (rectOf g).area ≠ 0 := hg
  simpa [area, rectOf, unionEnvelope] using Rect.hull_area_ne_zero (s := rectOf h) this

/-- C7: for each unconsumed footprint at index `a` in a pass, the resolution
partner returned by the inner scan is exactly the first later unconsumed
non-degenerate index whose overlap score exceeds the threshold; every earlier
candidate position fails one of the conditions, so first-found wins and no
later candidate is considered. -/
theorem merge_target_first_found (rows : List Geometry) (t : ℚ) (a : ℕ)
    (ga : Geometry) (merged : List ℕ) (b : ℕ) :
    findMergeTarget rows t a ga merged = some b ↔
      b < rows.length ∧ a < b ∧ b ∉ merged ∧ area (rows.getD b default) ≠ 0 ∧
        overlapb t ga (rows.getD b default) = true ∧
        ∀ c, c < b → a < c → c ∉ merged → area (rows.getD c default) ≠ 0 →
          overlapb t ga (rows.getD c default) = false := by
  rw [findMergeTarget, find?_range_some]
  constructor
  · rintro ⟨hbn, hcand, hmin⟩
    obtain ⟨h1, h2, h3, h4⟩ := isCand_eq_true.mp hcand
    refine ⟨hbn, h1, h2, h3, h4, ?_⟩
    intro c hcb hac hcm hcz
    cases hov : overlapb t ga (rows.getD c default) with
    | false => rfl
    | true =>
        exact absurd (isCand_eq_true.mpr ⟨hac, hcm, hcz, hov⟩)
          (by simp [hmin c hcb])
  · rintro ⟨hbn, h1, h2, h3, h4, hmin⟩
    refine ⟨hbn, isCand_eq_true.mpr ⟨h1, h2, h3, h4⟩, ?_⟩
    intro c hcb
    cases hc : isCand rows t a ga merged c with
    | false => rfl
    | true =>
        obtain ⟨hac, hcm, hcz, hov⟩ := isCand_eq_true.mp hc
        have hfalse := hmin c hcb hac hcm hcz
        rw [hfalse] at hov
        exact Bool.noConfusion hov

/-- Invariant of the outer scan, maintained after processing indices `< a`:
no index is consumed twice, consumed indices are in range, each merge consumed
two indices, every scanned degenerate index has been consumed, and every newly
created geometry is non-degenerate. -/
def PassInv (rows : List Geometry) (a : ℕ) (st : List ℕ × List Geometry) :
    Prop :=
  st.1.Nodup ∧ (∀ x ∈ st.1, x < rows.length) ∧ 2 * st.2.length ≤ st.1.length ∧
    (∀ j, j < a → area (rows.getD j default) = 0 → j ∈ st.1) ∧
    ∀ g ∈ st.2, area g ≠ 0

theorem passInv_step (rows : List Geometry) (t : ℚ) (a : ℕ)
    (st : List ℕ × List Geometry) (ha : a < rows.length)
    (h : PassInv rows a st) : PassInv rows (a + 1) (passStep rows t a st) := by
  obtain ⟨hnd, hb, hlen, hdeg, hnews⟩ := h
  by_cases hmem : a ∈ st.1
  · have heq : passStep rows t a st = st := by
      unfold passStep; rw [if_pos hmem]
    rw [heq]
    refine ⟨hnd, hb, hlen, ?_, hnews⟩
    intro j hj hz
    rcases Nat.lt_succ_iff_lt_or_eq.mp hj with h1 | rfl
    · exact hdeg j h1 hz
    · exact hmem
  · by_cases hz : area (rows.getD a default) = 0
    · have heq : passStep rows t a st = (a :: st.1, st.2) := by
        unfold passStep; rw [if_neg hmem, if_pos hz]
      rw [heq]
      refine ⟨List.nodup_cons.mpr ⟨hmem, hnd⟩, ?_, ?_, ?_, hnews⟩
      · intro x hx
        rcases List.mem_cons.mp hx with rfl | hx
        · exact ha
        · exact hb x hx
      · exact Nat.le_succ_of_le hlen
      · intro j hj hz2
        rcases Nat.lt_succ_iff_lt_or_eq.mp hj with h1 | rfl
        · exact List.mem_cons_of_mem _ (hdeg j h1 hz2)
        · exact List.mem_cons_self _ _
    · cases hfind : findMergeTarget rows t a (rows.getD a default) st.1 with
      | none =>
        have heq : passStep rows t a st = st := by
          unfold passStep; rw [if_neg hmem, if_neg hz, hfind]
        rw [heq]
        refine ⟨hnd, hb, hlen, ?_, hnews⟩
        intro j hj hz2
        rcases Nat.lt_succ_iff_lt_or_eq.mp hj with h1 | rfl
        · exact hdeg j h1 hz2
        · exact absurd hz2 hz
      | some b =>
        obtain ⟨hbn, hab, hbm, -, -, -⟩ :=
          (merge_target_first_found rows t a _ st.1 b).mp hfind
        have heq : passStep rows t a st =
            (b :: a :: st.1,
              st.2 ++ [Geometry.polygon
                (unionEnvelope (rows.getD a default) (rows.getD b default))]) := by
          unfold passStep; rw [if_neg hmem, if_neg hz, hfind]
        rw [heq]
        refine ⟨?_, ?_, ?_, ?_, ?_⟩
        · refine List.nodup_cons.mpr ⟨?_, List.nodup_cons.mpr ⟨hmem, hnd⟩⟩
          intro hbmem
          rcases List.mem_cons.mp hbmem with rfl | hx
          · exact Nat.lt_irrefl _ hab
          · exact hbm hx
        · intro x hx
          rcases List.mem_cons.mp hx with rfl | hx
          · exact hbn
          · rcases List.mem_cons.mp hx with rfl | hx
            · exact ha
            · exact hb x hx
        · simp only [List.length_append, List.length_cons, List.length_nil]
          omega
        · intro j hj hz2
          rcases Nat.lt_succ_iff_lt_or_eq.mp hj with h1 | rfl
          · exact List.mem_cons_of_mem _
              (List.mem_cons_of_mem _ (hdeg j h1 hz2))
          · exact absurd hz2 hz
        · intro g hg
          rcases List.mem_append.mp hg with hg | hg
          · exact hnews g hg
          · have hgeq := List.mem_singleton.mp hg
            subst hgeq
            exact area_merged_ne_zero hz

theorem passLoopFuel_inv (rows : List Geometry) (t : ℚ) :
    ∀ (fuel a : ℕ) (st : List ℕ × List Geometry), a + fuel ≤ rows.length →
      PassInv rows a st →
      PassInv rows (a + fuel) (passLoopFuel rows t fuel a st) := by
  intro fuel
  induction fuel with
  | zero => intro a st _ h; simpa using h
  | succ fuel ih =>
    intro a st hle h
    have hstep := passInv_step rows t a st (by omega) h
    have hrec := ih (a + 1) (passStep rows t a st) (by omega) hstep
    have harith : a + 1 + fuel = a + (fuel + 1) := by omega
    rw [harith] at hrec
    simpa [passLoopFuel] using hrec

theorem passLoop_inv (rows : List Geometry) (t : ℚ) :
    PassInv rows rows.length (passLoop rows t) := by
  have h0 : PassInv rows 0 ([], []) := by
    refine ⟨List.nodup_nil, ?_, ?_, ?_, ?_⟩ <;> simp
  simpa [passLoop] using
    passLoopFuel_inv rows t rows.length 0 ([], []) (by omega) h0

theorem length_filter_add_not {α : Type} (l : List α) (p : α → Bool) :
    (l.filter p).length + (l.filter (fun a => !p a)).length = l.length := by
  induction l with
  | nil => simp
  | cons a l ih =>
    cases h : p a <;> simp [List.filter_cons, h] <;> omega

theorem length_filter_mem_eq (n : ℕ) (m : List ℕ) (hnd : m.Nodup)
    (hb : ∀ x ∈ m, x < n) :
    ((List.range n).filter (fun i => decide (i ∈ m))).length = m.length := by
  have hnd2 : ((List.range n).filter (fun i => decide (i ∈ m))).Nodup :=
    List.Nodup.filter _ (List.nodup_range n)
  have hfin : ((List.range n).filter (fun i => decide (i ∈ m))).toFinset =
      m.toFinset := by
    ext x
    simp only [List.mem_toFinset, List.mem_filter, List.mem_range,
      decide_eq_true_eq]
    exact ⟨fun hx => hx.2, fun hx => ⟨hb x hx, hx⟩⟩
  calc ((List.range n).filter (fun i => decide (i ∈ m))).length
      = ((List.range n).filter (fun i => decide (i ∈ m))).toFinset.card :=
        (List.toFinset_card_of_nodup hnd2).symm
    _ = m.toFinset.card := by rw [hfin]
    _ = m.length := List.toFinset_card_of_nodup hnd

theorem length_remaining (n : ℕ) (m : List ℕ) (hnd : m.Nodup)
    (hb : ∀ x ∈ m, x < n) :
    ((List.range n).filter (fun i => decide (i ∉ m))).length = n - m.length ∧
      m.length ≤ n := by
  have h1 := length_filter_add_not (List.range n) (fun i => decide (i ∈ m))
  have h2 := length_filter_mem_eq n m hnd hb
  have h3 : ((List.range n).filter (fun i => !decide (i ∈ m))) =
      ((List.range n).filter (fun i => decide (i ∉ m))) := by
    apply List.filter_congr
    intro x _
    simp [decide_not]
  rw [h3] at h1
  rw [h2, List.length_range] at h1
  omega

/-- The `.ok` result of a pass carries `passResultRows` and the input's crs. -/
theorem clean_ok_rows {gdf : GeoDataFrame} {t : ℚ} {out : GeoDataFrame}
    (h : clean_overlapping_bboxes gdf t = Except.ok out) :
    out.rows = passResultRows gdf.rows t ∧ out.crs = gdf.crs := by
  unfold clean_overlapping_bboxes at h
  split at h
  · have h2 := Except.ok.inj h
    constructor
    · rw [← h2]
    · rw [← h2]
  · exact absurd h (by simp)

/-- Mixed input for exercising a pass: one degenerate footprint followed by
two coincident unit squares. -/
def mixGdf : GeoDataFrame := ⟨[degGeom, unitSq, unitSq], crsL93⟩

/-! ### Claims -/

/-- C1 (counterexample): on an input holding a single footprint of area 0,
one pass of `clean_overlapping_bboxes` returns the empty footprint set — the
degenerate footprint is NOT present in the output, contradicting the claim
that it is conservatively retained. -/
theorem degenerate_retained_cex :
    clean_overlapping_bboxes degGdf defaultThreshold =
        Except.ok ⟨[], crsL93⟩ ∧
      degGeom ∈ degGdf.rows ∧ area degGeom = 0 ∧
      degGeom ∉ (⟨[], crsL93⟩ : GeoDataFrame).rows := by
  decide!

/-- C1 (amended): a footprint with `area == 0` is never matched as a merge
partner, but a single pass drops it: every footprint in the output of a
successful pass has nonzero area, so no degenerate input footprint survives. -/
theorem degenerate_dropped (gdf : GeoDataFrame) (t : ℚ) (out : GeoDataFrame)
    (h : clean_overlapping_bboxes gdf t = Except.ok out) :
    ∀ g ∈ out.rows, area g ≠ 0 := by
  obtain ⟨hrows, -⟩ := clean_ok_rows h
  obtain ⟨-, -, -, hdeg, hnews⟩ := passLoop_inv gdf.rows t
  intro g hg
  rw [hrows] at hg
  simp only [passResultRows] at hg
  have hrem : ∀ g2, g2 ∈ ((List.range gdf.rows.length).filter
      (fun i => decide (i ∉ (passLoop gdf.rows t).1))).map
      (fun i => gdf.rows.getD i default) → area g2 ≠ 0 := by
    intro g2 hg2
    obtain ⟨i, hi, rfl⟩ := List.mem_map.mp hg2
    obtain ⟨hirange, hinot⟩ := List.mem_filter.mp hi
    have hin : i < gdf.rows.length := List.mem_range.mp hirange
    intro hz
    exact (decide_eq_true_eq.mp hinot) (hdeg i hin hz)
  split at hg
  · exact hrem g hg
  · rcases List.mem_append.mp hg with hg | hg
    · exact hrem g hg
    · exact hnews g hg

/-- C1 (witness for the amended theorem): the pass on `mixGdf` succeeds with
a single merged footprint, which has nonzero area. -/
theorem degenerate_dropped_witness : area unitSq ≠ 0 :=
  degenerate_dropped mixGdf defaultThreshold ⟨[unitSq], crsL93⟩ (by decide!)
    unitSq (by simp)

/-- C2 (code bug evidence): a one-footprint set is a fixed point of the pass
(the count is unchanged from the very first pass), yet the cleaning loop of
`make_a_gif_for_coordinates` still executes all `max_cleaning_iterations`
passes (here 3), instead of stopping after the first stable pass. -/
theorem cleaning_loop_ignores_fixed_point :
    clean_overlapping_bboxes oneBoxGdf defaultThreshold =
        Except.ok oneBoxGdf ∧
      cleaningLoop defaultThreshold 3 oneBoxGdf =
        Except.ok (oneBoxGdf, 3) := by
  decide!

/-- C3 (code bug evidence): two identical unit squares overlap with IoU 1,
far above the 0.3 threshold, yet one `merge` pass of the Test5 variant leaves
both unchanged (2 footprints instead of the claimed 1), because the
`polygon == other` guard skips every pair of value-equal geometries. -/
theorem identical_squares_not_merged :
    iou unitSq unitSq = 1 ∧
      Test5.clean_overlapping_bboxes [unitSq, unitSq] defaultThreshold
          Test5.Mode.merge =
        Except.ok [unitSq, unitSq] := by
  decide!

/-- C4: a single reduction pass never increases cardinality: whenever
`clean_overlapping_bboxes` succeeds, the output footprint set has at most as
many footprints as the input. -/
theorem single_pass_card_le (gdf : GeoDataFrame) (t : ℚ) (out : GeoDataFrame)
    (h : clean_overlapping_bboxes gdf t = Except.ok out) :
    out.rows.length ≤ gdf.rows.length := by
  obtain ⟨hrows, -⟩ := clean_ok_rows h
  obtain ⟨hnd, hb, hlen, -, -⟩ := passLoop_inv gdf.rows t
  obtain ⟨hrem, hle⟩ :=
    length_remaining gdf.rows.length (passLoop gdf.rows t).1 hnd hb
  rw [hrows]
  simp only [passResultRows]
  split
  · rw [List.length_map, hrem]
    omega
  · rw [List.length_append, List.length_map, hrem]
    omega

/-- C4 (witness): the pass on two coincident unit squares returns one merged
footprint, and 1 ≤ 2. -/
theorem single_pass_card_le_witness :
    (⟨[unitSq], crsL93⟩ : GeoDataFrame).rows.length ≤ twoSqGdf.rows.length :=
  single_pass_card_le twoSqGdf defaultThreshold ⟨[unitSq], crsL93⟩ (by decide!)

/-- C5: a pass fails with the invalid-geometry error exactly when some input
footprint's geometry is neither a polygon nor a multi-polygon; the validation
is a separate leading phase, and an erroring pass returns no frame at all
(no partial result). -/
theorem invalid_kind_iff_error (gdf : GeoDataFrame) (t : ℚ) :
    clean_overlapping_bboxes gdf t = Except.error invalidGeometryMsg ↔
      ∃ g ∈ gdf.rows, validKind g = false := by
  unfold clean_overlapping_bboxes
  split
  case isTrue hall =>
    constructor
    · intro h
      exact absurd h (by simp)
    · rintro ⟨g, hg, hv⟩
      have htrue := List.all_eq_true.mp hall g hg
      rw [hv] at htrue
      exact Bool.noConfusion htrue
  case isFalse hall =>
    constructor
    · intro _
      have hfalse : gdf.rows.all validKind = false :=
        Bool.eq_false_iff.mpr hall
      obtain ⟨g, hg, hv⟩ := List.all_eq_false.mp hfalse
      exact ⟨g, hg, Bool.eq_false_iff.mpr hv⟩
    · intro _
      rfl

/-- C6: the pair-overlap test of the single-pass reducer fires exactly when
the asymmetric containment score
`max(inter_area / area(A), inter_area / area(B))` strictly exceeds the
threshold, whose default value is `0.3`. -/
theorem overlap_score_max_threshold (t : ℚ) (ga gb : Geometry)
    (_ha : area ga ≠ 0) (_hb : area gb ≠ 0) :
    (overlapb t ga gb = true ↔
      max (interArea ga gb / area ga) (interArea ga gb / area gb) > t) ∧
      defaultThreshold = 3 / 10 := by
  refine ⟨?_, rfl⟩
  rw [overlapb]
  simp [lt_max_iff, Bool.or_eq_true, decide_eq_true_eq, gt_iff_lt]

/-- C6 (witness): the scoring equivalence evaluated on two concrete
non-degenerate rectangles. -/
theorem overlap_score_max_threshold_witness :
    (overlapb defaultThreshold bigA smallB = true ↔
      max (interArea bigA smallB / area bigA)
          (interArea bigA smallB / area smallB) > defaultThreshold) ∧
      defaultThreshold = 3 / 10 :=
  overlap_score_max_threshold defaultThreshold bigA smallB (by decide!)
    (by decide!)

/-- C8: under the `remove_smaller` policy the resolution of an overlapping
pair keeps the footprint with the larger area (ties keep the first one) and
filters out the other; in Scenario C (A of area 10 overlapping B of area 4
above threshold) the whole pass retains only A. -/
theorem remove_smaller_keeps_larger (gdf : List Geometry) (p o : Geometry)
    (t : ℚ) (_hov : iou p o > t) :
    (area o ≤ area p →
      Test5.resolveOverlap Test5.Mode.removeSmaller p o gdf =
        gdf.filter (fun g => g ≠ o)) ∧
    (area p < area o →
      Test5.resolveOverlap Test5.Mode.removeSmaller p o gdf =
        gdf.filter (fun g => g ≠ p)) ∧
    Test5.clean_overlapping_bboxes [bigA, smallB] defaultThreshold
        Test5.Mode.removeSmaller =
      Except.ok [bigA] := by
  refine ⟨?_, ?_, by decide!⟩
  · intro hle
    show (if area p ≥ area o then gdf.filter (fun g => g ≠ o)
        else gdf.filter (fun g => g ≠ p)) = gdf.filter (fun g => g ≠ o)
    rw [if_pos hle]
  · intro hlt
    show (if area p ≥ area o then gdf.filter (fun g => g ≠ o)
        else gdf.filter (fun g => g ≠ p)) = gdf.filter (fun g => g ≠ p)
    rw [if_neg (not_le.mpr hlt)]

/-- C8 (witness): resolving the Scenario C pair drops exactly the rows whose
geometry is the smaller shape. -/
theorem remove_smaller_keeps_larger_witness :
    Test5.resolveOverlap Test5.Mode.removeSmaller bigA smallB
        [bigA, smallB] =
      [bigA, smallB].filter (fun g => g ≠ smallB) :=
  (remove_smaller_keeps_larger [bigA, smallB] bigA smallB defaultThreshold
      (by decide!)).1 (by decide!)

/-- C9: one pass call has no aliasing effect on its caller: in the heap model
the result is a freshly allocated frame (its reference differs from the
input's), and every pre-existing frame — in particular the input frame — is
unchanged. -/
theorem pass_no_aliasing (heap : List GeoDataFrame) (i : ℕ) (t : ℚ)
    (heap2 : List GeoDataFrame) (j : ℕ) (hi : i < heap.length)
    (h : cleanOnHeap heap i t = Except.ok (heap2, j)) :
    j ≠ i ∧ heap2.take heap.length = heap ∧
      heap2.getD i emptyGdf = heap.getD i emptyGdf := by
  unfold cleanOnHeap at h
  cases hc : clean_overlapping_bboxes (heap.getD i emptyGdf) t with
  | error e =>
    rw [hc] at h
    exact Except.noConfusion h
  | ok out =>
    rw [hc] at h
    have h2 := Except.ok.inj h
    injection h2 with h3 h4
    subst h3
    subst h4
    refine ⟨by omega, ?_, ?_⟩
    · exact List.take_left heap [out]
    · exact List.getD_append heap [out] emptyGdf i hi

/-- C9 (witness): a pass call on a one-frame heap allocates its result at the
fresh reference 1 and leaves frame 0 untouched. -/
theorem pass_no_aliasing_witness :
    (1 : ℕ) ≠ 0 ∧
      [oneBoxGdf, oneBoxGdf].take [oneBoxGdf].length = [oneBoxGdf] ∧
      [oneBoxGdf, oneBoxGdf].getD 0 emptyGdf =
        [oneBoxGdf].getD 0 emptyGdf :=
  pass_no_aliasing [oneBoxGdf] 0 defaultThreshold [oneBoxGdf, oneBoxGdf] 1
    (by decide!) (by decide!)

/-- C10: a successful pass carries the input's coordinate reference system to
the output frame — in the source both result branches do (explicitly via
`crs=gdf.crs` when merged geometries exist, by slice inheritance otherwise). -/
theorem pass_preserves_crs (gdf : GeoDataFrame) (t : ℚ) (out : GeoDataFrame)
    (h : clean_overlapping_bboxes gdf t = Except.ok out) :
    out.crs = gdf.crs :=
  (clean_ok_rows h).2

/-- C10 (witness): the merged output of the two-square input keeps the input
crs. -/
theorem pass_preserves_crs_witness :
    (⟨[unitSq], crsL93⟩ : GeoDataFrame).crs = twoSqGdf.crs :=
  pass_preserves_crs twoSqGdf defaultThreshold ⟨[unitSq], crsL93⟩ (by decide!)

end SatClean
